import Mathlib

/-!
Shallow embedding of the microblog social/notification core
(`src/app/main/routes.py` together with the model-layer operations it
calls).  Machine timestamps are modelled as `Nat`; database tables are
lists of records; each request handler is a function from an explicit
`State` to a new `State` plus its visible result.  Operations whose
bodies live in `app/models.py` (absent from the provided sources) are
modelled from the specification and marked as such in their doc
comments.
-/

namespace Microblog

/-- User record: `id`, unique `username`, profile text `about_me`, the
`last_seen` timestamp and the `last_message_read_time` watermark. -/
structure UserRec where
  id : Nat
  username : String
  about_me : String
  last_seen : Nat
  last_message_read_time : Nat
  deriving DecidableEq

/-- Post record: author reference `user_id`, body, detected `language`
tag (empty when detection failed) and creation `timestamp`. -/
structure PostRec where
  id : Nat
  user_id : Nat
  body : String
  language : String
  timestamp : Nat
  deriving DecidableEq

/-- Message record: `sender_id`, `recipient_id`, body and creation
`timestamp`. -/
structure MessageRec where
  id : Nat
  sender_id : Nat
  recipient_id : Nat
  body : String
  timestamp : Nat
  deriving DecidableEq

/-- Notification record: owner `user_id`, `name` tag, numeric `payload`
(the unread counts and progress numbers the claims are about) and the
per-owner monotonic `timestamp`. -/
structure NotificationRec where
  id : Nat
  name : String
  user_id : Nat
  timestamp : Nat
  payload : Nat
  deriving DecidableEq

/-- Task record: owner `user_id`, task-type `name`, `description` and
the `complete` flag (`complete = false` means the task is active). -/
structure TaskRec where
  id : Nat
  name : String
  description : String
  user_id : Nat
  complete : Bool
  deriving DecidableEq

/-- The persistent store: one list per table, the follow edges as
ordered pairs `(follower_id, followee_id)`, and the id counter used by
row creation. -/
structure State where
  users : List UserRec
  posts : List PostRec
  messages : List MessageRec
  notifications : List NotificationRec
  tasks : List TaskRec
  follow_edges : List (Nat × Nat)
  next_id : Nat
  deriving DecidableEq

/-- Look a user up by primary key. -/
def find_user (s : State) (uid : Nat) : Option UserRec :=
  s.users.find? (fun r => r.id == uid)

/-- Look a user up by username, as `sa.select(User).where(User.username
== username)` does in the routes. -/
def find_user_by_name (s : State) (username : String) : Option UserRec :=
  s.users.find? (fun r => r.username == username)

/-- Update the single user row with the given id, leaving every other
row untouched. -/
def update_user (s : State) (uid : Nat) (f : UserRec → UserRec) : State :=
  { s with users := s.users.map (fun r => if r.id = uid then f r else r) }

/-! ### Notification Stream -/

/-- Modelled from the spec: the maximum existing notification timestamp
for an owner (`0` when the owner has none), the quantity `publish` must
strictly exceed. -/
def max_owner_timestamp : List NotificationRec → Nat → Nat
  | [], _ => 0
  | n :: rest, o =>
    if n.user_id = o then max n.timestamp (max_owner_timestamp rest o)
    else max_owner_timestamp rest o

/-- Modelled from the spec: `User.add_notification` (in `app/models.py`,
absent from the provided sources).  Publishes a notification for
`owner`, assigning the timestamp `max(now, lastTimestamp + epsilon)`
(epsilon = 1 on `Nat` time) so that per-owner timestamps are strictly
increasing even when two publishes share a clock tick; the log is
append-only. -/
def add_notification (s : State) (owner : Nat) (name : String) (payload : Nat)
    (now : Nat) : State × NotificationRec :=
  let ts := max now (max_owner_timestamp s.notifications owner + 1)
  let n : NotificationRec :=
    { id := s.next_id, name := name, user_id := owner, timestamp := ts, payload := payload }
  ({ s with notifications := s.notifications ++ [n], next_id := s.next_id + 1 }, n)

/-- Comparison used by the `order_by(Notification.timestamp.asc())` of
the `/notifications` route. -/
def notif_le (a b : NotificationRec) : Prop :=
  a.timestamp ≤ b.timestamp

instance : DecidableRel notif_le :=
  fun a b => inferInstanceAs (Decidable (a.timestamp ≤ b.timestamp))

instance : IsTotal NotificationRec notif_le :=
  ⟨fun a b => Nat.le_total a.timestamp b.timestamp⟩

instance : IsTrans NotificationRec notif_le :=
  ⟨fun _ _ _ h₁ h₂ => Nat.le_trans h₁ h₂⟩

/-- The `/notifications` route: all notifications of the current user
with `timestamp > since`, ordered by ascending timestamp
(`routes.py` lines 279-292). -/
def notifications_route (s : State) (uid : Nat) (since : Nat) : List NotificationRec :=
  List.insertionSort notif_le
    (s.notifications.filter (fun n => decide (n.user_id = uid ∧ since < n.timestamp)))

/-- Store invariant: along the notification log, two notifications of
the same owner have strictly increasing timestamps. -/
def NotifInv (s : State) : Prop :=
  s.notifications.Pairwise (fun a b => a.user_id = b.user_id → a.timestamp < b.timestamp)

instance (s : State) : Decidable (NotifInv s) :=
  inferInstanceAs (Decidable (List.Pairwise _ _))

/-- Every notification of owner `o` has timestamp at most
`max_owner_timestamp`. -/
theorem le_max_owner_timestamp : ∀ {l : List NotificationRec} {o : Nat}
    {n : NotificationRec}, n ∈ l → n.user_id = o →
    n.timestamp ≤ max_owner_timestamp l o
  | [], _, _, hm, _ => absurd hm (List.not_mem_nil _)
  | a :: rest, o, n, hm, ho => by
    rcases List.mem_cons.mp hm with rfl | hm'
    · simp only [max_owner_timestamp]
      rw [if_pos ho]
      exact Nat.le_max_left _ _
    · simp only [max_owner_timestamp]
      split
      · exact Nat.le_trans (le_max_owner_timestamp hm' ho) (Nat.le_max_right _ _)
      · exact le_max_owner_timestamp hm' ho

/-- Appending a single notification updates `max_owner_timestamp` by a
`max` with the new timestamp when the owner matches. -/
theorem max_owner_timestamp_append : ∀ (l : List NotificationRec) (o : Nat)
    (n : NotificationRec),
    max_owner_timestamp (l ++ [n]) o =
      if n.user_id = o then max (max_owner_timestamp l o) n.timestamp
      else max_owner_timestamp l o
  | [], o, n => by
    simp only [List.nil_append, max_owner_timestamp]
    split <;> omega
  | a :: rest, o, n => by
    simp only [List.cons_append, max_owner_timestamp, List.append_eq,
      max_owner_timestamp_append rest o n]
    split <;> split <;> omega

/-- The published notification's timestamp strictly exceeds the
previous per-owner maximum. -/
theorem add_notification_timestamp_gt (s : State) (o : Nat) (name : String)
    (payload now : Nat) :
    max_owner_timestamp s.notifications o <
      (add_notification s o name payload now).2.timestamp := by
  simp only [add_notification]
  omega

/-- The published notification is appended to the log and owned by `o`. -/
theorem add_notification_log (s : State) (o : Nat) (name : String) (payload now : Nat) :
    (add_notification s o name payload now).1.notifications =
      s.notifications ++ [(add_notification s o name payload now).2] ∧
    (add_notification s o name payload now).2.user_id = o ∧
    (add_notification s o name payload now).2.name = name ∧
    (add_notification s o name payload now).2.payload = payload := by
  exact ⟨rfl, rfl, rfl, rfl⟩

/-- Publishing preserves the per-owner monotonicity invariant. -/
theorem notifInv_add_notification (s : State) (o : Nat) (name : String)
    (payload now : Nat) (h : NotifInv s) :
    NotifInv (add_notification s o name payload now).1 := by
  have hgt := add_notification_timestamp_gt s o name payload now
  unfold NotifInv at h ⊢
  rw [(add_notification_log s o name payload now).1, List.pairwise_append]
  refine ⟨h, List.pairwise_singleton _ _, ?_⟩
  intro a ha b hb heq
  rcases List.mem_singleton.mp hb with rfl
  have ho : a.user_id = o := by
    rw [heq, (add_notification_log s o name payload now).2.1]
  exact Nat.lt_of_le_of_lt (le_max_owner_timestamp ha ho) hgt

/-- After publishing, the new timestamp is the per-owner maximum. -/
theorem max_owner_timestamp_after_add (s : State) (o : Nat) (name : String)
    (payload now : Nat) :
    max_owner_timestamp (add_notification s o name payload now).1.notifications o =
      (add_notification s o name payload now).2.timestamp := by
  have hgt := add_notification_timestamp_gt s o name payload now
  rw [(add_notification_log s o name payload now).1, max_owner_timestamp_append,
    if_pos (add_notification_log s o name payload now).2.1]
  omega

/-- The `/notifications` query on any state satisfying the invariant:
its result is a permutation of exactly the owner's notifications with
timestamp above the bound, and it is strictly ascending in timestamp. -/
theorem notifications_route_spec (s : State) (uid : Nat) (since : Nat)
    (h : NotifInv s) :
    (notifications_route s uid since).Perm
      (s.notifications.filter (fun n => decide (n.user_id = uid ∧ since < n.timestamp))) ∧
    (notifications_route s uid since).Pairwise (fun a b => a.timestamp < b.timestamp) := by
  constructor
  · exact List.perm_insertionSort _ _
  · have hperm := List.perm_insertionSort notif_le
      (s.notifications.filter (fun n => decide (n.user_id = uid ∧ since < n.timestamp)))
    have hle : (notifications_route s uid since).Pairwise notif_le :=
      List.sorted_insertionSort notif_le _
    have hfilter : (s.notifications.filter
        (fun n => decide (n.user_id = uid ∧ since < n.timestamp))).Pairwise
        (fun a b => a.user_id = b.user_id → a.timestamp < b.timestamp) :=
      List.Pairwise.filter _ h
    have hne' : (s.notifications.filter
        (fun n => decide (n.user_id = uid ∧ since < n.timestamp))).Pairwise
        (fun a b => a.timestamp ≠ b.timestamp) := by
      refine List.Pairwise.imp_of_mem ?_ hfilter
      intro a b ha hb hab
      have ha' := (List.mem_filter.mp ha).2
      have hb' := (List.mem_filter.mp hb).2
      rw [decide_eq_true_eq] at ha' hb'
      have : a.timestamp < b.timestamp := hab (ha'.1.trans hb'.1.symm)
      omega
    have hne : (notifications_route s uid since).Pairwise
        (fun a b => a.timestamp ≠ b.timestamp) := by
      refine (List.Perm.pairwise_iff ?_ hperm).mpr hne'
      intro a b hab
      omega
    refine (hle.and hne).imp ?_
    intro a b hab
    exact Nat.lt_of_le_of_ne hab.1 hab.2

/-- Publish a sequence of `(name, payload, now)` events for one owner,
returning the final state and the created notifications in order. -/
def publish_all (s : State) (o : Nat) : List (String × Nat × Nat) → State × List NotificationRec
  | [] => (s, [])
  | e :: rest =>
    let r₁ := add_notification s o e.1 e.2.1 e.2.2
    let r₂ := publish_all r₁.1 o rest
    (r₂.1, r₁.2 :: r₂.2)

/-- Combined induction for `publish_all`: one notification per event,
each new timestamp above the initial per-owner maximum, pairwise
strictly increasing timestamps, and the invariant preserved. -/
theorem publish_all_spec (o : Nat) : ∀ (events : List (String × Nat × Nat)) (s : State),
    NotifInv s →
    (publish_all s o events).2.length = events.length ∧
    (∀ n ∈ (publish_all s o events).2,
      max_owner_timestamp s.notifications o < n.timestamp) ∧
    (publish_all s o events).2.Pairwise (fun a b => a.timestamp < b.timestamp) ∧
    NotifInv (publish_all s o events).1 := by
  intro events
  induction events with
  | nil =>
    intro s hs
    refine ⟨rfl, ?_, ?_, hs⟩
    · intro n hn
      simp only [publish_all] at hn
      cases hn
    · simp only [publish_all]
      exact List.Pairwise.nil
  | cons e rest ih =>
    intro s hs
    have hinv₁ : NotifInv (add_notification s o e.1 e.2.1 e.2.2).1 :=
      notifInv_add_notification s o e.1 e.2.1 e.2.2 hs
    obtain ⟨hlen, hgt, hpw, hinv⟩ := ih (add_notification s o e.1 e.2.1 e.2.2).1 hinv₁
    have hmax := max_owner_timestamp_after_add s o e.1 e.2.1 e.2.2
    have hts := add_notification_timestamp_gt s o e.1 e.2.1 e.2.2
    refine ⟨?_, ?_, ?_, ?_⟩
    · simpa [publish_all] using hlen
    · intro n hn
      simp only [publish_all, List.mem_cons] at hn
      rcases hn with rfl | hn
      · exact hts
      · exact Nat.lt_trans hts (hmax ▸ hgt n hn)
    · simp only [publish_all]
      rw [List.pairwise_cons]
      refine ⟨?_, hpw⟩
      intro n hn
      exact hmax ▸ hgt n hn
    · simpa [publish_all] using hinv

/-- C1: for every owner `o`, publishing `N` notifications in immediate
succession yields `N` notifications whose per-owner timestamps are
strictly increasing, and the `since` query of the `/notifications`
route returns exactly the notifications of `o` with timestamp strictly
greater than `t`, in ascending timestamp order. -/
theorem publish_monotone_since_exact (s : State) (o : Nat)
    (events : List (String × Nat × Nat)) (t : Nat) (h : NotifInv s) :
    (publish_all s o events).2.length = events.length ∧
    (publish_all s o events).2.Pairwise (fun a b => a.timestamp < b.timestamp) ∧
    (notifications_route (publish_all s o events).1 o t).Perm
      ((publish_all s o events).1.notifications.filter
        (fun n => decide (n.user_id = o ∧ t < n.timestamp))) ∧
    (notifications_route (publish_all s o events).1 o t).Pairwise
      (fun a b => a.timestamp < b.timestamp) := by
  obtain ⟨hlen, _, hpw, hinv⟩ := publish_all_spec o events s h
  obtain ⟨hperm, hasc⟩ := notifications_route_spec (publish_all s o events).1 o t hinv
  exact ⟨hlen, hpw, hperm, hasc⟩

/-- Witness for the C1 theorem: two same-tick publishes on an initially
empty store. -/
theorem publish_monotone_since_exact_witness :
    NotifInv ⟨[], [], [], [], [], [], 0⟩ ∧
    (publish_all ⟨[], [], [], [], [], [], 0⟩ 7
      [("task_progress", 1, 5), ("unread_message_count", 2, 5)]).2.length = 2 := by
  refine ⟨by decide, ?_⟩
  exact (publish_monotone_since_exact ⟨[], [], [], [], [], [], 0⟩ 7
    [("task_progress", 1, 5), ("unread_message_count", 2, 5)] 0 (by decide)).1

/-! ### Messaging Channel -/

/-- Modelled from the spec: `User.unread_message_count` (in
`app/models.py`, absent from the provided sources): the number of
messages addressed to `u` whose timestamp is strictly above `u`'s
`last_message_read_time` watermark. -/
def unread_message_count (s : State) (u : UserRec) : Nat :=
  (s.messages.filter
    (fun m => decide (m.recipient_id = u.id ∧ u.last_message_read_time < m.timestamp))).length

/-- Intermediate store of the `/send_message` route: the new message
row added (the `db.session.add(msg)` step), before the notification is
published. -/
def send_message_mid (s : State) (sender_id recipient_uid : Nat) (body : String)
    (now : Nat) : State :=
  { s with
    messages := s.messages ++
      [{ id := s.next_id, sender_id := sender_id, recipient_id := recipient_uid,
         body := body, timestamp := now }],
    next_id := s.next_id + 1 }

/-- The `/send_message/<recipient>` route (`routes.py` lines 229-243):
look the recipient up by username (abort unchanged when absent), store
the message, then publish an `unread_message_count` notification for
the recipient whose payload is the unread count recomputed on the
store that already contains the new message.  Returns `true` when the
message was sent. -/
def send_message (s : State) (sender_id : Nat) (recipient body : String)
    (now : Nat) : State × Bool :=
  match find_user_by_name s recipient with
  | none => (s, false)
  | some u =>
    let s₁ := send_message_mid s sender_id u.id body now
    ((add_notification s₁ u.id "unread_message_count" (unread_message_count s₁ u) now).1,
      true)

/-- Adding the new message row increases the recipient's unread count
by exactly one when the message postdates the read watermark. -/
theorem unread_count_mid (s : State) (sender_id : Nat) (u : UserRec) (body : String)
    (now : Nat) (hnow : u.last_message_read_time < now) :
    unread_message_count (send_message_mid s sender_id u.id body now) u =
      unread_message_count s u + 1 := by
  simp only [unread_message_count, send_message_mid]
  rw [List.filter_append, List.length_append]
  simp [hnow]

/-- The state-changing prefix of the `/messages` route (`routes.py`
lines 246-265): set the current user's `last_message_read_time`
watermark to now and unconditionally publish an
`unread_message_count` notification with payload `0`; the rest of the
handler only reads the received-message page. -/
def messages_route (s : State) (uid : Nat) (now : Nat) : State :=
  let s₁ := update_user s uid (fun r => { r with last_message_read_time := now })
  (add_notification s₁ uid "unread_message_count" 0 now).1

/-- Looking up the updated id after `update_user` returns the mapped
record, provided the update keeps the id. -/
theorem find?_update_self (uid : Nat) (f : UserRec → UserRec)
    (hf : ∀ r, (f r).id = r.id) :
    ∀ l : List UserRec,
      (l.map (fun r => if r.id = uid then f r else r)).find? (fun r => r.id == uid) =
        (l.find? (fun r => r.id == uid)).map f
  | [] => rfl
  | a :: rest => by
    by_cases h : a.id = uid
    · have hfa : ((f a).id == uid) = true := by simp [hf a, h]
      simp only [List.map_cons, if_pos h]
      rw [List.find?_cons, List.find?_cons]
      simp [hfa, h]
    · have hna : (a.id == uid) = false := by simp [h]
      simp only [List.map_cons, if_neg h]
      rw [List.find?_cons, List.find?_cons]
      simp only [hna]
      exact find?_update_self uid f hf rest

/-- Looking up any other id after `update_user` is unchanged, provided
the update keeps the id. -/
theorem find?_update_other (uid v : Nat) (hv : v ≠ uid) (f : UserRec → UserRec)
    (hf : ∀ r, (f r).id = r.id) :
    ∀ l : List UserRec,
      (l.map (fun r => if r.id = uid then f r else r)).find? (fun r => r.id == v) =
        l.find? (fun r => r.id == v)
  | [] => rfl
  | a :: rest => by
    by_cases h : a.id = uid
    · have hfa : ((f a).id == v) = false := by
        simp only [hf a, h, beq_eq_false_iff_ne, ne_eq]
        omega
      have hav : (a.id == v) = false := by
        simp only [h, beq_eq_false_iff_ne, ne_eq]
        omega
      simp only [List.map_cons, if_pos h]
      rw [List.find?_cons, List.find?_cons]
      simp only [hfa, hav]
      exact find?_update_other uid v hv f hf rest
    · simp only [List.map_cons, if_neg h]
      rw [List.find?_cons, List.find?_cons]
      by_cases hav : a.id = v
      · simp [hav]
      · have hna : (a.id == v) = false := by simp [hav]
        simp only [hna]
        exact find?_update_other uid v hv f hf rest

/-- Record-level effect of `messages_route` on the user table. -/
theorem messages_route_users (s : State) (uid now : Nat) :
    (messages_route s uid now).users =
      s.users.map (fun r => if r.id = uid then { r with last_message_read_time := now } else r) :=
  rfl

/-- The `/messages` route does not touch the message table. -/
theorem messages_route_messages (s : State) (uid now : Nat) :
    (messages_route s uid now).messages = s.messages :=
  rfl

/-- The `/messages` route appends exactly one `unread_message_count`
notification with payload `0`, unconditionally. -/
theorem messages_route_notification (s : State) (uid now : Nat) :
    ∃ n : NotificationRec,
      (messages_route s uid now).notifications = s.notifications ++ [n] ∧
      n.user_id = uid ∧ n.name = "unread_message_count" ∧ n.payload = 0 :=
  ⟨_, rfl, rfl, rfl, rfl⟩

/-- C4: for every pair of existing users, sending a message increases
the recipient's unread count by exactly one (the message being sent
strictly after the recipient's read watermark) and publishes exactly
one `unread_message_count` notification for the recipient whose
payload equals the recipient's newly recomputed unread count, the one
including the message just sent. -/
theorem send_message_spec (s : State) (sender u : UserRec) (recipient body : String)
    (now : Nat) (hs : find_user s sender.id = some sender)
    (hr : find_user_by_name s recipient = some u)
    (hnow : u.last_message_read_time < now) :
    (send_message s sender.id recipient body now).2 = true ∧
    unread_message_count (send_message s sender.id recipient body now).1 u =
      unread_message_count s u + 1 ∧
    ∃ n : NotificationRec,
      (send_message s sender.id recipient body now).1.notifications =
        s.notifications ++ [n] ∧
      n.user_id = u.id ∧ n.name = "unread_message_count" ∧
      n.payload = unread_message_count (send_message s sender.id recipient body now).1 u := by
  simp only [send_message, hr]
  refine ⟨trivial, ?_, ?_⟩
  · exact unread_count_mid s sender.id u body now hnow
  · exact ⟨_, rfl, rfl, rfl, rfl⟩

/-- Witness for the C4 theorem: a two-user store, one message sent. -/
theorem send_message_spec_witness :
    find_user ⟨[⟨1, "a", "", 0, 0⟩, ⟨2, "b", "", 0, 0⟩], [], [], [], [], [], 3⟩ 1 =
      some ⟨1, "a", "", 0, 0⟩ ∧
    find_user_by_name ⟨[⟨1, "a", "", 0, 0⟩, ⟨2, "b", "", 0, 0⟩], [], [], [], [], [], 3⟩ "b" =
      some ⟨2, "b", "", 0, 0⟩ ∧
    (0 : Nat) < 4 ∧
    unread_message_count
      (send_message ⟨[⟨1, "a", "", 0, 0⟩, ⟨2, "b", "", 0, 0⟩], [], [], [], [], [], 3⟩
        1 "b" "hi" 4).1 ⟨2, "b", "", 0, 0⟩ =
      unread_message_count ⟨[⟨1, "a", "", 0, 0⟩, ⟨2, "b", "", 0, 0⟩], [], [], [], [], [], 3⟩
        ⟨2, "b", "", 0, 0⟩ + 1 :=
  ⟨by decide, by decide, by decide,
    (send_message_spec ⟨[⟨1, "a", "", 0, 0⟩, ⟨2, "b", "", 0, 0⟩], [], [], [], [], [], 3⟩
      ⟨1, "a", "", 0, 0⟩ ⟨2, "b", "", 0, 0⟩ "b" "hi" 4
      (by decide) (by decide) (by decide)).2.1⟩

/-- C5: `markAllRead` (the `/messages` route) sets the user's
`last_message_read_time` watermark to the current time, after which the
unread count is zero (no stored message postdates the clock), and it
unconditionally publishes an `unread_message_count` notification with
payload `0`. -/
theorem messages_route_spec (s : State) (u : UserRec) (now : Nat)
    (hu : find_user s u.id = some u)
    (hmsg : ∀ m ∈ s.messages, m.recipient_id = u.id → m.timestamp ≤ now) :
    find_user (messages_route s u.id now) u.id =
      some { u with last_message_read_time := now } ∧
    unread_message_count (messages_route s u.id now)
      { u with last_message_read_time := now } = 0 ∧
    ∃ n : NotificationRec,
      (messages_route s u.id now).notifications = s.notifications ++ [n] ∧
      n.user_id = u.id ∧ n.name = "unread_message_count" ∧ n.payload = 0 := by
  refine ⟨?_, ?_, messages_route_notification s u.id now⟩
  · unfold find_user
    rw [messages_route_users,
      find?_update_self u.id (fun r => { r with last_message_read_time := now })
        (fun r => rfl) s.users]
    unfold find_user at hu
    rw [hu]
    rfl
  · unfold unread_message_count
    rw [messages_route_messages, List.length_eq_zero, List.filter_eq_nil_iff]
    intro m hm
    show ¬(decide (m.recipient_id = u.id ∧ now < m.timestamp)) = true
    simp only [decide_eq_true_eq, not_and]
    intro hrec hlt
    exact absurd (hmsg m hm hrec) (by omega)

/-- Witness for the C5 theorem: one user, one already-delivered
message, watermark moved past it. -/
theorem messages_route_spec_witness :
    find_user ⟨[⟨1, "a", "", 0, 0⟩], [], [⟨5, 2, 1, "x", 3⟩], [], [], [], 6⟩ 1 =
      some ⟨1, "a", "", 0, 0⟩ ∧
    (∀ m ∈ [(⟨5, 2, 1, "x", 3⟩ : MessageRec)], m.recipient_id = 1 → m.timestamp ≤ 4) ∧
    unread_message_count
      (messages_route ⟨[⟨1, "a", "", 0, 0⟩], [], [⟨5, 2, 1, "x", 3⟩], [], [], [], 6⟩ 1 4)
      ⟨1, "a", "", 0, 4⟩ = 0 :=
  ⟨by decide, by decide,
    (messages_route_spec ⟨[⟨1, "a", "", 0, 0⟩], [], [⟨5, 2, 1, "x", 3⟩], [], [], [], 6⟩
      ⟨1, "a", "", 0, 0⟩ 4 (by decide) (by decide)).2.1⟩

/-! ### Social Graph -/

/-- Outcome flashed by the follow/unfollow routes. -/
inductive FollowResult where
  | notFound
  | invalidOperation
  | success
  deriving DecidableEq

/-- Modelled from the spec: `User.follow` (in `app/models.py`, absent
from the provided sources): a no-op when the edge already exists,
otherwise it creates the single edge `(follower, followee)`. -/
def user_follow (s : State) (follower followee : Nat) : State :=
  if (follower, followee) ∈ s.follow_edges then s
  else { s with follow_edges := s.follow_edges ++ [(follower, followee)] }

/-- Modelled from the spec: `User.unfollow` (in `app/models.py`, absent
from the provided sources): removes the edge when present, a no-op
otherwise. -/
def user_unfollow (s : State) (follower followee : Nat) : State :=
  { s with follow_edges := s.follow_edges.erase (follower, followee) }

/-- The `/follow/<username>` route (`routes.py` lines 152-169): resolve
the username (flash not-found when absent), reject self-follow before
any mutation, otherwise delegate to `User.follow`. -/
def follow (s : State) (cur : Nat) (username : String) : State × FollowResult :=
  match find_user_by_name s username with
  | none => (s, .notFound)
  | some u =>
    if u.id = cur then (s, .invalidOperation)
    else (user_follow s cur u.id, .success)

/-- The `/unfollow/<username>` route (`routes.py` lines 172-189):
resolve the username, reject self-unfollow before any mutation,
otherwise delegate to `User.unfollow`. -/
def unfollow (s : State) (cur : Nat) (username : String) : State × FollowResult :=
  match find_user_by_name s username with
  | none => (s, .notFound)
  | some u =>
    if u.id = cur then (s, .invalidOperation)
    else (user_unfollow s cur u.id, .success)

/-- `User.follow` leaves the user table untouched. -/
theorem user_follow_users (s : State) (x y : Nat) : (user_follow s x y).users = s.users := by
  unfold user_follow
  split <;> rfl

/-- After `User.follow` the edge is present exactly once, provided it
was present at most once before. -/
theorem user_follow_count (s : State) (x y : Nat)
    (h : s.follow_edges.count (x, y) ≤ 1) :
    (user_follow s x y).follow_edges.count (x, y) = 1 := by
  unfold user_follow
  split
  · rename_i hmem
    have h1 := List.count_pos_iff.mpr hmem
    omega
  · rename_i hmem
    have h0 : s.follow_edges.count (x, y) = 0 := List.count_eq_zero.mpr hmem
    show (s.follow_edges ++ [(x, y)]).count (x, y) = 1
    rw [List.count_append, h0, List.count_singleton_self]

/-- `User.unfollow` leaves the user table untouched. -/
theorem user_unfollow_users (s : State) (x y : Nat) :
    (user_unfollow s x y).users = s.users :=
  rfl

/-- `User.unfollow` is a no-op when the edge is absent. -/
theorem user_unfollow_absent (s : State) (x y : Nat)
    (h : (x, y) ∉ s.follow_edges) : user_unfollow s x y = s := by
  show { s with follow_edges := s.follow_edges.erase (x, y) } = s
  rw [List.erase_of_not_mem h]

/-- C6: for users `a ≠ b`, following twice succeeds both times and
leaves exactly one `(a, b)` edge; unfollowing then removes it, and a
second unfollow with the edge absent is a successful no-op. -/
theorem follow_idempotent_spec (s : State) (a : Nat) (username : String)
    (b : UserRec) (hb : find_user_by_name s username = some b) (hne : b.id ≠ a)
    (hcnt : s.follow_edges.count (a, b.id) ≤ 1) :
    ∃ s₁ s₂ s₃,
      follow s a username = (s₁, .success) ∧
      follow s₁ a username = (s₂, .success) ∧
      s₂.follow_edges.count (a, b.id) = 1 ∧
      unfollow s₂ a username = (s₃, .success) ∧
      s₃.follow_edges.count (a, b.id) = 0 ∧
      unfollow s₃ a username = (s₃, .success) := by
  have hb₁ : find_user_by_name (user_follow s a b.id) username = some b := by
    unfold find_user_by_name
    rw [user_follow_users]
    exact hb
  have hb₂ : find_user_by_name (user_follow (user_follow s a b.id) a b.id) username =
      some b := by
    unfold find_user_by_name
    rw [user_follow_users, user_follow_users]
    exact hb
  have hc₁ : (user_follow s a b.id).follow_edges.count (a, b.id) = 1 :=
    user_follow_count s a b.id hcnt
  have hc₂ : (user_follow (user_follow s a b.id) a b.id).follow_edges.count (a, b.id) = 1 :=
    user_follow_count _ a b.id (by omega)
  have hc₃ : (user_unfollow (user_follow (user_follow s a b.id) a b.id) a
      b.id).follow_edges.count (a, b.id) = 0 := by
    show ((user_follow (user_follow s a b.id) a b.id).follow_edges.erase
      (a, b.id)).count (a, b.id) = 0
    rw [List.count_erase_self, hc₂]
  have hb₃ : find_user_by_name (user_unfollow (user_follow (user_follow s a b.id) a b.id)
      a b.id) username = some b := by
    unfold find_user_by_name
    rw [user_unfollow_users, user_follow_users, user_follow_users]
    exact hb
  have hnc : (a, b.id) ∉ (user_unfollow (user_follow (user_follow s a b.id) a b.id) a
      b.id).follow_edges :=
    List.count_eq_zero.mp hc₃
  have hun : user_unfollow (user_unfollow (user_follow (user_follow s a b.id) a b.id) a
      b.id) a b.id =
      user_unfollow (user_follow (user_follow s a b.id) a b.id) a b.id :=
    user_unfollow_absent _ a b.id hnc
  refine ⟨user_follow s a b.id, user_follow (user_follow s a b.id) a b.id,
    user_unfollow (user_follow (user_follow s a b.id) a b.id) a b.id,
    ?_, ?_, hc₂, ?_, hc₃, ?_⟩
  · simp [follow, hb, hne]
  · simp [follow, hb₁, hne]
  · simp [unfollow, hb₂, hne]
  · simp [unfollow, hb₃, hne, hun]

/-- Witness for the C6 theorem: two users, no prior edge. -/
theorem follow_idempotent_spec_witness :
    find_user_by_name ⟨[⟨1, "a", "", 0, 0⟩, ⟨2, "b", "", 0, 0⟩], [], [], [], [], [], 3⟩ "b" =
      some ⟨2, "b", "", 0, 0⟩ ∧
    (2 : Nat) ≠ 1 ∧
    ([] : List (Nat × Nat)).count (1, 2) ≤ 1 ∧
    ∃ s₁ s₂ s₃,
      follow ⟨[⟨1, "a", "", 0, 0⟩, ⟨2, "b", "", 0, 0⟩], [], [], [], [], [], 3⟩ 1 "b" =
        (s₁, .success) ∧
      follow s₁ 1 "b" = (s₂, .success) ∧
      s₂.follow_edges.count (1, 2) = 1 ∧
      unfollow s₂ 1 "b" = (s₃, .success) ∧
      s₃.follow_edges.count (1, 2) = 0 ∧
      unfollow s₃ 1 "b" = (s₃, .success) :=
  ⟨by decide, by decide, by decide,
    follow_idempotent_spec ⟨[⟨1, "a", "", 0, 0⟩, ⟨2, "b", "", 0, 0⟩], [], [], [], [], [], 3⟩
      1 "b" ⟨2, "b", "", 0, 0⟩ (by decide) (by decide) (by decide)⟩

/-- C7: for an existing user, self-follow and self-unfollow are
rejected with the invalid-operation outcome, returning the store
exactly as it was: nothing is created, removed or otherwise changed. -/
theorem self_follow_rejected (s : State) (username : String) (b : UserRec)
    (hb : find_user_by_name s username = some b) :
    follow s b.id username = (s, .invalidOperation) ∧
    unfollow s b.id username = (s, .invalidOperation) := by
  constructor
  · simp [follow, hb]
  · simp [unfollow, hb]

/-- Witness for the C7 theorem: one user, self-follow attempt. -/
theorem self_follow_rejected_witness :
    find_user_by_name ⟨[⟨1, "a", "", 0, 0⟩], [], [], [], [], [], 2⟩ "a" =
      some ⟨1, "a", "", 0, 0⟩ ∧
    (follow ⟨[⟨1, "a", "", 0, 0⟩], [], [], [], [], [], 2⟩ 1 "a" =
      (⟨[⟨1, "a", "", 0, 0⟩], [], [], [], [], [], 2⟩, .invalidOperation) ∧
    unfollow ⟨[⟨1, "a", "", 0, 0⟩], [], [], [], [], [], 2⟩ 1 "a" =
      (⟨[⟨1, "a", "", 0, 0⟩], [], [], [], [], [], 2⟩, .invalidOperation)) :=
  ⟨by decide,
    self_follow_rejected ⟨[⟨1, "a", "", 0, 0⟩], [], [], [], [], [], 2⟩ "a"
      ⟨1, "a", "", 0, 0⟩ (by decide)⟩

/-! ### Task Tracker -/

/-- Failure outcome of the Task Tracker launch guard. -/
inductive TaskError where
  | taskAlreadyActive
  deriving DecidableEq

/-- Modelled from the spec: `User.get_task_in_progress` (in
`app/models.py`, absent from the provided sources): the active
(non-complete) task of the given type for the user, if any. -/
def get_task_in_progress (s : State) (uid : Nat) (name : String) : Option TaskRec :=
  s.tasks.find? (fun t => t.user_id == uid && t.name == name && !t.complete)

/-- Modelled from the spec: `launch(user, type, description)` of the
Task Tracker (`User.launch_task` in `app/models.py`, absent from the
provided sources): fails with `TaskAlreadyActive` when a non-complete
task of the same type exists for the user, creating nothing; otherwise
creates the task record and publishes the initial progress-0
notification under the task's type name. -/
def launch_task (s : State) (uid : Nat) (name description : String) (now : Nat) :
    Except TaskError (State × TaskRec) :=
  match get_task_in_progress s uid name with
  | some _ => .error .taskAlreadyActive
  | none =>
    let t : TaskRec :=
      { id := s.next_id, name := name, description := description,
        user_id := uid, complete := false }
    let s₁ := { s with tasks := s.tasks ++ [t], next_id := s.next_id + 1 }
    .ok ((add_notification s₁ uid name 0 now).1, t)

/-- Modelled from the spec: `complete(task, result)` of the Task
Tracker: marks the task complete, stores the result payload in a final
notification published under the task's type name. -/
def complete_task (s : State) (t : TaskRec) (result : Nat) (now : Nat) : State :=
  let s₁ := { s with
    tasks := s.tasks.map (fun x => if x.id = t.id then { x with complete := true } else x) }
  (add_notification s₁ t.user_id t.name result now).1

/-- The `/export_posts` route (`routes.py` lines 268-276): launch the
`export_posts` task unless one is already in progress, in which case
only an informational message is flashed and nothing changes. -/
def export_posts (s : State) (uid : Nat) (now : Nat) : State × Bool :=
  if (get_task_in_progress s uid "export_posts").isSome then (s, false)
  else
    match launch_task s uid "export_posts" "Exporting posts..." now with
    | .ok (s₁, _) => (s₁, true)
    | .error _ => (s, false)

/-- After a successful launch the newly created task is the active
task of its type for the user. -/
theorem get_task_in_progress_after_launch (s : State) (uid : Nat)
    (name description : String) (now : Nat)
    (h : get_task_in_progress s uid name = none) :
    get_task_in_progress
      (add_notification
        { s with
            tasks := s.tasks ++ [⟨s.next_id, name, description, uid, false⟩],
            next_id := s.next_id + 1 } uid name 0 now).1 uid name =
      some ⟨s.next_id, name, description, uid, false⟩ := by
  show (s.tasks ++ [(⟨s.next_id, name, description, uid, false⟩ : TaskRec)]).find?
      (fun t => t.user_id == uid && t.name == name && !t.complete) =
    some ⟨s.next_id, name, description, uid, false⟩
  rw [List.find?_append]
  unfold get_task_in_progress at h
  rw [h]
  simp

/-- Completing the freshly launched task leaves no active task of its
type for the user. -/
theorem get_task_in_progress_after_complete (s : State) (uid : Nat)
    (name description : String) (now₁ now₃ res : Nat)
    (h : get_task_in_progress s uid name = none) :
    get_task_in_progress
      (complete_task
        (add_notification
          { s with
              tasks := s.tasks ++ [⟨s.next_id, name, description, uid, false⟩],
              next_id := s.next_id + 1 } uid name 0 now₁).1
        ⟨s.next_id, name, description, uid, false⟩ res now₃) uid name = none := by
  show ((s.tasks ++ [(⟨s.next_id, name, description, uid, false⟩ : TaskRec)]).map
      (fun x => if x.id = s.next_id then { x with complete := true } else x)).find?
      (fun t => t.user_id == uid && t.name == name && !t.complete) = none
  rw [List.find?_eq_none]
  intro x hx
  rcases List.mem_map.mp hx with ⟨y, hy, rfl⟩
  rcases List.mem_append.mp hy with hy | hy
  · have hpy := List.find?_eq_none.mp h y hy
    by_cases hid : y.id = s.next_id
    · simp [hid]
    · simp only [if_neg hid]
      exact hpy
  · rcases List.mem_singleton.mp hy with rfl
    simp

/-- C2: launching while no task of the type is active succeeds and
records the new active task; a second launch without an intervening
completion fails with `TaskAlreadyActive` and creates nothing (the
`/export_posts` route then flashes and leaves the store unchanged);
after the active task is completed, a subsequent launch succeeds. -/
theorem launch_twice_complete_relaunch (s : State) (uid : Nat)
    (name description : String) (now₁ now₂ now₃ now₄ res : Nat)
    (h : get_task_in_progress s uid name = none) :
    ∃ s₁ t₁,
      launch_task s uid name description now₁ = .ok (s₁, t₁) ∧
      s₁.tasks = s.tasks ++ [t₁] ∧ t₁.complete = false ∧
      launch_task s₁ uid name description now₂ = .error .taskAlreadyActive ∧
      (name = "export_posts" → export_posts s₁ uid now₂ = (s₁, false)) ∧
      ∃ s₂ t₂,
        launch_task (complete_task s₁ t₁ res now₃) uid name description now₄ =
          .ok (s₂, t₂) := by
  refine ⟨(add_notification
      { s with
          tasks := s.tasks ++ [⟨s.next_id, name, description, uid, false⟩],
          next_id := s.next_id + 1 } uid name 0 now₁).1,
    ⟨s.next_id, name, description, uid, false⟩, ?_, rfl, rfl, ?_, ?_, ?_⟩
  · simp only [launch_task, h]
  · simp only [launch_task, get_task_in_progress_after_launch s uid name description now₁ h]
  · intro hn
    subst hn
    simp [export_posts,
      get_task_in_progress_after_launch s uid "export_posts" description now₁ h]
  · simp only [launch_task,
      get_task_in_progress_after_complete s uid name description now₁ now₃ res h]
    exact ⟨_, _, rfl⟩

/-- Witness for the C2 theorem: an empty store, then launch, relaunch,
complete and relaunch of the export task. -/
theorem launch_twice_complete_relaunch_witness :
    get_task_in_progress ⟨[], [], [], [], [], [], 0⟩ 1 "export_posts" = none ∧
    ∃ s₁ t₁,
      launch_task ⟨[], [], [], [], [], [], 0⟩ 1 "export_posts" "d" 0 = .ok (s₁, t₁) ∧
      s₁.tasks = ([] : List TaskRec) ++ [t₁] ∧ t₁.complete = false ∧
      launch_task s₁ 1 "export_posts" "d" 1 = .error .taskAlreadyActive ∧
      ("export_posts" = "export_posts" → export_posts s₁ 1 1 = (s₁, false)) ∧
      ∃ s₂ t₂,
        launch_task (complete_task s₁ t₁ 7 2) 1 "export_posts" "d" 3 = .ok (s₂, t₂) :=
  ⟨by decide,
    launch_twice_complete_relaunch ⟨[], [], [], [], [], [], 0⟩ 1 "export_posts" "d"
      0 1 2 3 7 (by decide)⟩

/-! ### Post Ledger and Feed Composer -/

/-- Failure raised by the external language-detection collaborator
(`langdetect.detect`), the single failure mode of its interface. -/
inductive LangDetectException where
  | failure
  deriving DecidableEq

/-- The post-creation branch of the `/index` route (`routes.py` lines
49-59): the detector outcome is supplied as the collaborator's result;
a detection failure is caught and mapped to the empty language tag,
and the post is stored either way. -/
def create_post (s : State) (author_id : Nat) (body : String)
    (detected : Except LangDetectException String) (now : Nat) : State × PostRec :=
  let language :=
    match detected with
    | .ok lang => lang
    | .error _ => ""
  let p : PostRec :=
    { id := s.next_id, user_id := author_id, body := body,
      language := language, timestamp := now }
  ({ s with posts := s.posts ++ [p], next_id := s.next_id + 1 }, p)

/-- C9: post creation never fails due to language detection — for
every detector failure the post is still created and stored with an
empty language tag, and the error does not surface (`create_post` is a
total function whose result does not carry the error). -/
theorem create_post_detection_failure_recovered (s : State) (author_id : Nat)
    (body : String) (e : LangDetectException) (now : Nat) :
    (create_post s author_id body (.error e) now).1.posts =
      s.posts ++ [(create_post s author_id body (.error e) now).2] ∧
    (create_post s author_id body (.error e) now).2.language = "" ∧
    (create_post s author_id body (.error e) now).2.body = body ∧
    (create_post s author_id body (.error e) now).2.user_id = author_id ∧
    (create_post s author_id body (.error e) now).2.timestamp = now :=
  ⟨rfl, rfl, rfl, rfl, rfl⟩

/-- Modelled from the spec: `followedFeedAuthors` — the user plus
everyone the user follows (self-inclusive, for feed composition). -/
def followed_feed_authors (s : State) (uid : Nat) : List Nat :=
  uid :: (s.follow_edges.filter (fun e => e.1 == uid)).map (fun e => e.2)

/-- Feed ordering: newer first, equal timestamps broken by higher post
id first. -/
def feed_rel (a b : PostRec) : Prop :=
  b.timestamp < a.timestamp ∨ (a.timestamp = b.timestamp ∧ b.id ≤ a.id)

instance : DecidableRel feed_rel :=
  fun a b => inferInstanceAs
    (Decidable (b.timestamp < a.timestamp ∨ (a.timestamp = b.timestamp ∧ b.id ≤ a.id)))

instance : IsTotal PostRec feed_rel :=
  ⟨fun a b => by unfold feed_rel; omega⟩

instance : IsTrans PostRec feed_rel :=
  ⟨fun a b c h₁ h₂ => by
    unfold feed_rel at h₁ h₂ ⊢
    omega⟩

/-- Modelled from the spec: `User.following_posts` (in `app/models.py`,
absent from the provided sources): the posts whose author is the user
or someone the user follows, ordered newest first with ties broken by
higher post id. -/
def following_posts (s : State) (uid : Nat) : List PostRec :=
  List.insertionSort feed_rel
    (s.posts.filter (fun p => decide (p.user_id ∈ followed_feed_authors s uid)))

/-- The feed-read part of the `/index` route (`routes.py` lines 60-68):
offset pagination over `following_posts`. -/
def index_feed (s : State) (uid page per_page : Nat) : List PostRec :=
  ((following_posts s uid).drop ((page - 1) * per_page)).take per_page

/-- C8: the home feed contains exactly the posts whose author is the
user or someone the user follows — no posts by unrelated authors —
ordered by creation timestamp descending with ties broken by higher
post id first, and the route paginates that sequence by offset. -/
theorem home_feed_spec (s : State) (uid page per_page : Nat)
    (hids : s.posts.Pairwise (fun p q => p.id ≠ q.id)) :
    (following_posts s uid).Perm
      (s.posts.filter (fun p => decide (p.user_id ∈ followed_feed_authors s uid))) ∧
    (∀ p, p ∈ following_posts s uid ↔
      p ∈ s.posts ∧ p.user_id ∈ followed_feed_authors s uid) ∧
    (following_posts s uid).Pairwise
      (fun a b => b.timestamp < a.timestamp ∨ (a.timestamp = b.timestamp ∧ b.id < a.id)) ∧
    index_feed s uid page per_page =
      ((following_posts s uid).drop ((page - 1) * per_page)).take per_page := by
  have hperm : (following_posts s uid).Perm
      (s.posts.filter (fun p => decide (p.user_id ∈ followed_feed_authors s uid))) :=
    List.perm_insertionSort _ _
  refine ⟨hperm, ?_, ?_, rfl⟩
  · intro p
    rw [hperm.mem_iff, List.mem_filter]
    simp
  · have hsorted : (following_posts s uid).Pairwise feed_rel :=
      List.sorted_insertionSort feed_rel _
    have hne₀ : (s.posts.filter
        (fun p => decide (p.user_id ∈ followed_feed_authors s uid))).Pairwise
        (fun p q => p.id ≠ q.id) :=
      List.Pairwise.filter _ hids
    have hne : (following_posts s uid).Pairwise (fun p q => p.id ≠ q.id) :=
      (List.Perm.pairwise_iff (fun h => Ne.symm h) hperm).mpr hne₀
    refine (hsorted.and hne).imp ?_
    intro a b hab
    rcases hab with ⟨h1, h2⟩
    unfold feed_rel at h1
    omega

/-- Witness for the C8 theorem: user 1 follows 2 and 3; posts by 1, 2,
3 and by the unrelated author 4. -/
theorem home_feed_spec_witness :
    ([⟨10, 1, "x", "", 5⟩, ⟨11, 2, "y", "", 6⟩, ⟨12, 3, "z", "", 6⟩,
        ⟨13, 4, "w", "", 9⟩] : List PostRec).Pairwise (fun p q => p.id ≠ q.id) ∧
    (following_posts
        ⟨[], [⟨10, 1, "x", "", 5⟩, ⟨11, 2, "y", "", 6⟩, ⟨12, 3, "z", "", 6⟩,
          ⟨13, 4, "w", "", 9⟩], [], [], [], [(1, 2), (1, 3)], 20⟩ 1).Perm
      (([⟨10, 1, "x", "", 5⟩, ⟨11, 2, "y", "", 6⟩, ⟨12, 3, "z", "", 6⟩,
        ⟨13, 4, "w", "", 9⟩] : List PostRec).filter
        (fun p => decide (p.user_id ∈ followed_feed_authors
          ⟨[], [⟨10, 1, "x", "", 5⟩, ⟨11, 2, "y", "", 6⟩, ⟨12, 3, "z", "", 6⟩,
            ⟨13, 4, "w", "", 9⟩], [], [], [], [(1, 2), (1, 3)], 20⟩ 1))) ∧
    (following_posts
        ⟨[], [⟨10, 1, "x", "", 5⟩, ⟨11, 2, "y", "", 6⟩, ⟨12, 3, "z", "", 6⟩,
          ⟨13, 4, "w", "", 9⟩], [], [], [], [(1, 2), (1, 3)], 20⟩ 1).Pairwise
      (fun a b => b.timestamp < a.timestamp ∨ (a.timestamp = b.timestamp ∧ b.id < a.id)) :=
  ⟨by decide,
    (home_feed_spec
      ⟨[], [⟨10, 1, "x", "", 5⟩, ⟨11, 2, "y", "", 6⟩, ⟨12, 3, "z", "", 6⟩,
        ⟨13, 4, "w", "", 9⟩], [], [], [], [(1, 2), (1, 3)], 20⟩ 1 1 10 (by decide)).1,
    (home_feed_spec
      ⟨[], [⟨10, 1, "x", "", 5⟩, ⟨11, 2, "y", "", 6⟩, ⟨12, 3, "z", "", 6⟩,
        ⟨13, 4, "w", "", 9⟩], [], [], [], [(1, 2), (1, 3)], 20⟩ 1 1 10 (by decide)).2.2.1⟩

/-! ### Request hook -/

/-- The `before_app_request` hook (`routes.py` lines 36-42): for an
authenticated requester, set that user's `last_seen` to the current
time and commit, before the requested handler runs. -/
def before_request (s : State) (uid now : Nat) : State :=
  update_user s uid (fun r => { r with last_seen := now })

/-- A complete `/notifications` poll as the app processes it: the
`before_request` hook commits the `last_seen` update first, then the
read-only handler only queries the store. -/
def notifications_request (s : State) (uid now since : Nat) :
    State × List NotificationRec :=
  (before_request s uid now, notifications_route (before_request s uid now) uid since)

/-- Row-level effect of the hook on the user table. -/
theorem before_request_users (s : State) (uid now : Nat) :
    (before_request s uid now).users =
      s.users.map (fun r => if r.id = uid then { r with last_seen := now } else r) :=
  rfl

/-- C10: every request by an authenticated user — the read-only
notifications poll included — first sets that user's `last_seen` to
the current time and commits it, leaving every other field of the user,
every other user and every other table unchanged; hence (the clock
having moved past the stored `last_seen`) no such request leaves the
store entirely unmodified. -/
theorem before_request_spec (s : State) (u : UserRec) (now t : Nat)
    (hu : find_user s u.id = some u) (hchanged : u.last_seen ≠ now) :
    find_user (before_request s u.id now) u.id = some { u with last_seen := now } ∧
    (∀ v, v ≠ u.id → find_user (before_request s u.id now) v = find_user s v) ∧
    (before_request s u.id now).posts = s.posts ∧
    (before_request s u.id now).messages = s.messages ∧
    (before_request s u.id now).notifications = s.notifications ∧
    (before_request s u.id now).tasks = s.tasks ∧
    (before_request s u.id now).follow_edges = s.follow_edges ∧
    before_request s u.id now ≠ s ∧
    notifications_request s u.id now t =
      (before_request s u.id now,
        notifications_route (before_request s u.id now) u.id t) := by
  have hself : find_user (before_request s u.id now) u.id =
      some { u with last_seen := now } := by
    unfold find_user
    rw [before_request_users,
      find?_update_self u.id (fun r => { r with last_seen := now }) (fun r => rfl) s.users]
    unfold find_user at hu
    rw [hu]
    rfl
  refine ⟨hself, ?_, rfl, rfl, rfl, rfl, rfl, ?_, rfl⟩
  · intro v hv
    unfold find_user
    rw [before_request_users,
      find?_update_other u.id v hv (fun r => { r with last_seen := now }) (fun r => rfl)
        s.users]
  · intro he
    rw [he, hu] at hself
    exact hchanged (congrArg UserRec.last_seen (Option.some.inj hself))

/-- Witness for the C10 theorem: one user whose stored `last_seen`
differs from the current clock. -/
theorem before_request_spec_witness :
    find_user ⟨[⟨1, "a", "", 0, 0⟩], [], [], [], [], [], 2⟩ 1 = some ⟨1, "a", "", 0, 0⟩ ∧
    (0 : Nat) ≠ 5 ∧
    find_user (before_request ⟨[⟨1, "a", "", 0, 0⟩], [], [], [], [], [], 2⟩ 1 5) 1 =
      some ⟨1, "a", "", 5, 0⟩ ∧
    before_request ⟨[⟨1, "a", "", 0, 0⟩], [], [], [], [], [], 2⟩ 1 5 ≠
      ⟨[⟨1, "a", "", 0, 0⟩], [], [], [], [], [], 2⟩ :=
  ⟨by decide, by decide,
    (before_request_spec ⟨[⟨1, "a", "", 0, 0⟩], [], [], [], [], [], 2⟩ ⟨1, "a", "", 0, 0⟩
      5 0 (by decide) (by decide)).1,
    (before_request_spec ⟨[⟨1, "a", "", 0, 0⟩], [], [], [], [], [], 2⟩ ⟨1, "a", "", 0, 0⟩
      5 0 (by decide) (by decide)).2.2.2.2.2.2.2.1⟩

end Microblog
